import Mathlib

/-!
Verification development for the brewfile package-reconciliation engine
(`src/brewfile.py`, with its predecessor `src/brewfile_v1.py`).

The Python data model and operations are shallowly embedded as executable
Lean definitions.  Python `dict`s (which have unique, insertion-ordered
keys) are modelled as association lists; Python `set` values (whose
iteration order is unspecified) are modelled as duplicate-free lists and
all set-level statements are phrased via membership.  Subprocess calls to
the external `brew` bridge are modelled as oracle parameters: each bridge
call is an input telling whether the call succeeded and, for listings,
which output lines it produced.  `die(msg)` (which prints and calls
`sys.exit(1)`, raising `SystemExit` — *not* an `Exception`) is modelled as
a distinguished `systemExit` outcome, while caught exceptions that merely
print an error are modelled as reported-error outcomes.
-/

namespace Brewfile

/-- Embeds `PackageGroup` (src/brewfile.py:57-106): a group of packages
with taps, brews, casks, and mas apps. -/
structure PackageGroup where
  taps : List String
  brews : List String
  casks : List String
  mas : List String
deriving Repr, DecidableEq

/-- The `dataclass` defaults: all four lists empty. -/
def PackageGroup.empty : PackageGroup := ⟨[], [], [], []⟩

/-- Embeds `PackageGroup.add_package` (src/brewfile.py:75-90): append the
name to the list for the given type if not already present; raise
`ValueError` (modelled as `.error`) on an unknown package type. -/
def PackageGroup.add_package (g : PackageGroup) (package_type package_name : String) :
    Except String PackageGroup :=
  if package_type == "taps" then
    .ok (if g.taps.contains package_name then g
         else { g with taps := g.taps ++ [package_name] })
  else if package_type == "brews" then
    .ok (if g.brews.contains package_name then g
         else { g with brews := g.brews ++ [package_name] })
  else if package_type == "casks" then
    .ok (if g.casks.contains package_name then g
         else { g with casks := g.casks ++ [package_name] })
  else if package_type == "mas" then
    .ok (if g.mas.contains package_name then g
         else { g with mas := g.mas ++ [package_name] })
  else
    .error ("Unknown package type: " ++ package_type)

/-- Embeds `PackageGroup.remove_package` (src/brewfile.py:92-106): remove
the first occurrence (Python `list.remove`) from the matching list,
returning whether anything was removed. -/
def PackageGroup.remove_package (g : PackageGroup) (package_type package_name : String) :
    Bool × PackageGroup :=
  if package_type == "taps" && g.taps.contains package_name then
    (true, { g with taps := g.taps.erase package_name })
  else if package_type == "brews" && g.brews.contains package_name then
    (true, { g with brews := g.brews.erase package_name })
  else if package_type == "casks" && g.casks.contains package_name then
    (true, { g with casks := g.casks.erase package_name })
  else if package_type == "mas" && g.mas.contains package_name then
    (true, { g with mas := g.mas.erase package_name })
  else
    (false, g)

/-- Embeds `PackageInfo` (src/brewfile.py:109-116) without the mutable
`installed` flag (which is display-only state updated by
`update_package_status`). `package_type` is the singular form:
"tap", "brew", "cask", "mas". -/
structure PackageInfo where
  name : String
  group : String
  package_type : String
deriving Repr, DecidableEq

/-- The `{"taps": [...], "brews": [...], "casks": [...], "mas": [...]}`
dictionaries used for installed/missing/extra package sets. -/
structure PkgDict where
  taps : List String
  brews : List String
  casks : List String
  mas : List String
deriving Repr, DecidableEq

def PkgDict.empty : PkgDict := ⟨[], [], [], []⟩

/-- The set comprehension `{p.name for p in packages if p.package_type == t}`
from `get_missing_packages`/`get_extra_packages`: the configured names of
one (singular) package type, as a duplicate-free list. -/
def configuredNames (configured : List PackageInfo) (t : String) : List String :=
  ((configured.filter (fun p => p.package_type == t)).map (fun p => p.name)).dedup

/-- Embeds `PackageAnalyzer.get_missing_packages` (src/brewfile.py:451-472):
per kind, the configured names minus the installed names, by plain set
difference on exact identifiers (no special treatment of any kind). -/
def get_missing_packages (configured : List PackageInfo) (installed : PkgDict) : PkgDict :=
  { taps := (configuredNames configured "tap").filter (fun n => !(installed.taps.contains n))
  , brews := (configuredNames configured "brew").filter (fun n => !(installed.brews.contains n))
  , casks := (configuredNames configured "cask").filter (fun n => !(installed.casks.contains n))
  , mas := (configuredNames configured "mas").filter (fun n => !(installed.mas.contains n)) }

/-- Embeds `PackageAnalyzer.get_extra_packages` (src/brewfile.py:474-495):
per kind, the installed names minus the configured names, by plain set
difference on exact identifiers. -/
def get_extra_packages (configured : List PackageInfo) (installed : PkgDict) : PkgDict :=
  { taps := installed.taps.dedup.filter (fun n => !((configuredNames configured "tap").contains n))
  , brews := installed.brews.dedup.filter (fun n => !((configuredNames configured "brew").contains n))
  , casks := installed.casks.dedup.filter (fun n => !((configuredNames configured "cask").contains n))
  , mas := installed.mas.dedup.filter (fun n => !((configuredNames configured "mas").contains n)) }

/-- The raw per-group JSON data consumed by `BrewfileConfig.from_dict`
(`pkg_data.get("taps", [])` etc.); absent JSON keys are the empty list. -/
structure RawGroup where
  taps : List String
  brews : List String
  casks : List String
  mas : List String
deriving Repr, DecidableEq

/-- The raw top-level JSON data consumed by `BrewfileConfig.from_dict`;
Python `dict`s are modelled as association lists with unique keys. -/
structure RawConfig where
  version : String
  packages : List (String × RawGroup)
  machines : List (String × List String)
deriving Repr, DecidableEq

/-- Embeds `BrewfileConfig` (src/brewfile.py:119-127): version tag, named
package groups, and hostname → group-name-list assignments. -/
structure BrewfileConfig where
  version : String
  packages : List (String × PackageGroup)
  machines : List (String × List String)
deriving Repr, DecidableEq

/-- Python `name in dict` / `dict[name]` lookup on the packages mapping. -/
def findGroup (ps : List (String × PackageGroup)) (name : String) : Option PackageGroup :=
  (ps.find? (fun e => e.1 == name)).map (fun e => e.2)

/-- Embeds `BrewfileConfig.from_dict` (src/brewfile.py:129-146): each raw
group's lists are taken verbatim into a `PackageGroup`; nothing is
de-duplicated or validated. -/
def BrewfileConfig.from_dict (data : RawConfig) : BrewfileConfig :=
  { version := data.version
  , packages := data.packages.map
      (fun e => (e.1, PackageGroup.mk e.2.taps e.2.brews e.2.casks e.2.mas))
  , machines := data.machines }

/-- `self.machines.get(machine_name, [])` from `get_machine_groups`. -/
def assignedGroups (c : BrewfileConfig) (machine_name : String) : List String :=
  ((c.machines.find? (fun e => e.1 == machine_name)).map (fun e => e.2)).getD []

/-- Embeds `BrewfileConfig.get_machine_groups` (src/brewfile.py:188-197):
the explicitly assigned groups, with the machine's self-named group
appended at the end only when a group of that name exists in
`self.packages` and it is not already in the assignment. -/
def BrewfileConfig.get_machine_groups (c : BrewfileConfig) (machine_name : String) :
    List String :=
  let groups := assignedGroups c machine_name
  if (findGroup c.packages machine_name).isSome && !(groups.contains machine_name) then
    groups ++ [machine_name]
  else
    groups

/-- Embeds `BrewfileConfig.ensure_group_exists` (src/brewfile.py:207-210). -/
def BrewfileConfig.ensure_group_exists (c : BrewfileConfig) (group_name : String) :
    BrewfileConfig :=
  if (findGroup c.packages group_name).isSome then c
  else { c with packages := c.packages ++ [(group_name, PackageGroup.empty)] }

/-- `package_type[:-1] if package_type != "mas" else "mas"` from
`collect_packages_for_groups` (src/brewfile.py:229-232). -/
def displayType (package_type : String) : String :=
  if package_type == "mas" then "mas" else package_type.dropRight 1

/-- One inner loop of `collect_packages_for_groups`: walk one package list
of one group, appending entries whose `(package_type, package)` key is
unseen.  The accumulator carries (collected entries, seen keys). -/
def collectFromList (gname ptype : String) (pkgs : List String)
    (acc : List PackageInfo × List (String × String)) :
    List PackageInfo × List (String × String) :=
  pkgs.foldl (fun acc pkg =>
    if acc.2.contains (ptype, pkg) then acc
    else (acc.1 ++ [PackageInfo.mk pkg gname (displayType ptype)], acc.2 ++ [(ptype, pkg)])) acc

/-- Embeds `BrewfileConfig.collect_packages_for_groups`
(src/brewfile.py:212-243): flatten the given groups in order (skipping
names with no group), de-duplicating by `(package_type, package)` with the
first occurrence winning. -/
def BrewfileConfig.collect_packages_for_groups (c : BrewfileConfig) (groups : List String) :
    List PackageInfo :=
  (groups.foldl (fun acc g =>
    match findGroup c.packages g with
    | none => acc
    | some pg =>
      collectFromList g "mas" pg.mas
        (collectFromList g "casks" pg.casks
          (collectFromList g "brews" pg.brews
            (collectFromList g "taps" pg.taps acc)))) ([], [])).1

namespace BrewfileManager

/-- `if package_type == "cask"` dispatch used by `_add_to_config_group` and
`_remove_from_config`: casks go to the "casks" list, everything else
(the CLI passes "formula") to the "brews" list. -/
def listKey (package_type : String) : String :=
  if package_type == "cask" then "casks" else "brews"

/-- The `for group_name, group in self.config.packages.items()` loop of
`_remove_from_config`: run `remove_package` on every group, collecting
whether anything was removed, the updated groups, and the names of the
groups announced via `say(...)`. -/
def sweepGroups (key package_name : String) :
    List (String × PackageGroup) → Bool × List (String × PackageGroup) × List String
  | [] => (false, [], [])
  | e :: rest =>
    let r := e.2.remove_package key package_name
    let tail := sweepGroups key package_name rest
    (r.1 || tail.1, (e.1, r.2) :: tail.2.1, (if r.1 then [e.1] else []) ++ tail.2.2)

/-- Result of `BrewfileManager._remove_from_config`: the return value, the
updated in-memory config, the announced group names, and whether
`_save_config()` was invoked (the code saves exactly when something was
removed). -/
structure RemoveConfigResult where
  removed : Bool
  config : BrewfileConfig
  announced : List String
  saved : Bool
deriving Repr, DecidableEq

/-- Embeds `BrewfileManager._remove_from_config` (src/brewfile.py:1253-1271):
sweep all groups removing the name from each group's cask/brew list, then
persist the config if and only if at least one removal happened. -/
def remove_from_config (c : BrewfileConfig) (package_name package_type : String) :
    RemoveConfigResult :=
  let s := sweepGroups (listKey package_type) package_name c.packages
  { removed := s.1
  , config := { c with packages := s.2.1 }
  , announced := s.2.2
  , saved := s.1 }

/-- `self.config.packages[target_group] = ...` style in-place update: with
unique keys this rewrites exactly the entry named `name`. -/
def setGroup (ps : List (String × PackageGroup)) (name : String) (pg : PackageGroup) :
    List (String × PackageGroup) :=
  ps.map (fun e => if e.1 == name then (e.1, pg) else e)

/-- Embeds `BrewfileManager._add_to_config_group` (src/brewfile.py:1237-1251)
up to (but not including) its final `_save_config()` call, which is
modelled by the caller's save oracle: ensure the target group exists, then
`add_package` the name into its "casks" or "brews" list.  The `.error`
case is the `ValueError` a bad package type would raise (unreachable from
`cmd_add`, which passes only "casks"/"brews"). -/
def add_to_config_group (c : BrewfileConfig) (package_name package_type target_group : String) :
    Except String BrewfileConfig :=
  let c1 := c.ensure_group_exists target_group
  let pg := (findGroup c1.packages target_group).getD PackageGroup.empty
  match pg.add_package (listKey package_type) package_name with
  | .error e => .error e
  | .ok pg' => .ok { c1 with packages := setGroup c1.packages target_group pg' }

/-- Embeds `BrewfileManager._check_machine_configured`
(src/brewfile.py:558-560): `self.machine_name in self.config.machines`. -/
def check_machine_configured (c : BrewfileConfig) (machine_name : String) : Bool :=
  (c.machines.find? (fun e => e.1 == machine_name)).isSome

/-- Observable result of one `cmd_status` run: the process exit code (a
plain `return` exits 0; nothing in this command calls `sys.exit`), the
in-memory config afterwards (never written), whether the
"Machine not configured. Run 'brewfile init' first." message was printed,
and the computed missing/extra sets. -/
structure StatusResult where
  exitCode : Nat
  config : BrewfileConfig
  saidNotConfigured : Bool
  missing : PkgDict
  extra : PkgDict
deriving Repr, DecidableEq

/-- Embeds `BrewfileManager.cmd_status` (src/brewfile.py:692-754).  The
System State Snapshot produced by the analyzer's bridge calls is taken as
the `installed` input.  On an unconfigured machine the guard prints an
informational message and returns — the process then exits 0. -/
def cmd_status (c : BrewfileConfig) (machine_name : String) (installed : PkgDict) :
    StatusResult :=
  if !(check_machine_configured c machine_name) then
    { exitCode := 0, config := c, saidNotConfigured := true
    , missing := PkgDict.empty, extra := PkgDict.empty }
  else
    let groups := c.get_machine_groups machine_name
    let configured := c.collect_packages_for_groups groups
    { exitCode := 0, config := c, saidNotConfigured := false
    , missing := get_missing_packages configured installed
    , extra := get_extra_packages configured installed }

/-- The three ways the `input()` prompt in `cmd_remove` can resolve:
an answer starting with "y", any other answer, or EOF/interrupt. -/
inductive Answer
  | yes
  | no
  | interrupted
deriving Repr, DecidableEq

/-- Observable result of one `cmd_remove` run: exit code, final in-memory
config, whether `_save_config` persisted it, whether `brew uninstall` was
invoked, and which messages were issued. -/
structure RemoveRunResult where
  exitCode : Nat
  config : BrewfileConfig
  persisted : Bool
  uninstallCalled : Bool
  saidNotConfigured : Bool
  warnedNotFound : Bool
  errorReported : Bool
deriving Repr, DecidableEq

/-- Embeds `BrewfileManager.cmd_remove` (src/brewfile.py:1152-1189).
Order of the source: (1) `_remove_from_config` — which already persists
the mutated config when it removed anything; (2) `cmd_generate`
(Brewfile rewrite, modelled as succeeding); (3) prompt, and only on an
answer starting with "y" run `brew uninstall` (`uninstallOk` oracle); a
failing uninstall raises `CalledProcessError`, caught by the outer
handler which prints an error and returns (exit code 0). -/
def cmd_remove (c : BrewfileConfig) (machine_name package_name package_type : String)
    (answer : Answer) (uninstallOk : Bool) : RemoveRunResult :=
  if !(check_machine_configured c machine_name) then
    { exitCode := 0, config := c, persisted := false, uninstallCalled := false
    , saidNotConfigured := true, warnedNotFound := false, errorReported := false }
  else
    let r := remove_from_config c package_name package_type
    if !r.removed then
      { exitCode := 0, config := r.config, persisted := false, uninstallCalled := false
      , saidNotConfigured := false, warnedNotFound := true, errorReported := false }
    else
      match answer with
      | .yes =>
        if uninstallOk then
          { exitCode := 0, config := r.config, persisted := true, uninstallCalled := true
          , saidNotConfigured := false, warnedNotFound := false, errorReported := false }
        else
          { exitCode := 0, config := r.config, persisted := true, uninstallCalled := true
          , saidNotConfigured := false, warnedNotFound := false, errorReported := true }
      | _ =>
        { exitCode := 0, config := r.config, persisted := true, uninstallCalled := false
        , saidNotConfigured := false, warnedNotFound := false, errorReported := false }

/-- The live system's installed packages as the bridge sees them, split
into formulas and casks (the two kinds `cmd_add`/`cmd_remove` touch). -/
structure SysState where
  formulas : List String
  casks : List String
deriving Repr, DecidableEq

/-- A successful `brew install [--cask] name` (src/brewfile.py:1315-1320):
the package becomes present in the live system. -/
def installPkg (s : SysState) (package_name package_type : String) : SysState :=
  if package_type == "cask" then
    { s with casks := if s.casks.contains package_name then s.casks
                      else s.casks ++ [package_name] }
  else
    { s with formulas := if s.formulas.contains package_name then s.formulas
                         else s.formulas ++ [package_name] }

/-- A successful `brew uninstall [--cask] name`: the package leaves the
live system. -/
def uninstallPkg (s : SysState) (package_name package_type : String) : SysState :=
  if package_type == "cask" then
    { s with casks := s.casks.erase package_name }
  else
    { s with formulas := s.formulas.erase package_name }

/-- How one `cmd_add` run terminates.  `systemExit c` is `die(...)` —
`sys.exit(c)` raising `SystemExit`, which the command's
`except Exception` handlers do NOT catch; the reported-error outcomes are
exceptions caught by those handlers (normal return, exit code 0). -/
inductive AddOutcome
  | guardReturn
  | installErrorReported
  | configErrorReported (msg : String)
  | systemExit (code : Nat)
  | ok
deriving Repr, DecidableEq

/-- The process exit code of each `cmd_add` outcome. -/
def AddOutcome.exitCode : AddOutcome → Nat
  | .systemExit c => c
  | _ => 0

/-- Outcomes of the bridge/filesystem calls `cmd_add` performs:
`installOk` — `brew install`; `saveOk` — the `open(config_file, "w")`
inside `BrewfileConfig.save`; `generateOk` — the Brewfile write inside
`cmd_generate`; `rollbackOk` — the `brew uninstall` of
`_rollback_installation`. -/
structure AddOracle where
  installOk : Bool
  saveOk : Bool
  generateOk : Bool
  rollbackOk : Bool
deriving Repr, DecidableEq

/-- Observable result of one `cmd_add` run. -/
structure AddRunResult where
  outcome : AddOutcome
  sys : SysState
  config : BrewfileConfig
  configPersisted : Bool
  rollbackAttempted : Bool
  rollbackWarned : Bool
deriving Repr, DecidableEq

/-- Embeds `BrewfileManager.cmd_add` (src/brewfile.py:1114-1150), with the
package type and target group (interactive/bridge-probed in the source)
taken as inputs.  Source order: guard; install; then
`_add_to_config_group` (mutate config, then `_save_config`) and
`cmd_generate` inside `try/except Exception`.  Crucially,
`BrewfileConfig.save` reacts to a write failure with
`die(...)` = `sys.exit(1)` (src/brewfile.py:162-169), raising
`SystemExit`, which `except Exception` does not catch — so the rollback
branch runs only for `Exception`s such as the `ValueError` of an unknown
package type, never for a failed configuration write, which instead
terminates the process with the freshly installed package left in place. -/
def cmd_add (c : BrewfileConfig) (machine_name package_name package_type target_group : String)
    (o : AddOracle) (sys : SysState) : AddRunResult :=
  if !(check_machine_configured c machine_name) then
    { outcome := .guardReturn, sys := sys, config := c, configPersisted := false
    , rollbackAttempted := false, rollbackWarned := false }
  else if !o.installOk then
    -- CalledProcessError from _install_package, caught by the outer handler
    { outcome := .installErrorReported, sys := sys, config := c, configPersisted := false
    , rollbackAttempted := false, rollbackWarned := false }
  else
    let sys1 := installPkg sys package_name package_type
    match add_to_config_group c package_name package_type target_group with
    | .error msg =>
      -- except Exception: warn, _rollback_installation, re-raise (caught outside)
      if o.rollbackOk then
        { outcome := .configErrorReported msg
        , sys := uninstallPkg sys1 package_name package_type, config := c
        , configPersisted := false, rollbackAttempted := true, rollbackWarned := false }
      else
        { outcome := .configErrorReported msg, sys := sys1, config := c
        , configPersisted := false, rollbackAttempted := true, rollbackWarned := true }
    | .ok c1 =>
      if !o.saveOk then
        -- die() inside BrewfileConfig.save: SystemExit(1), no rollback runs
        { outcome := .systemExit 1, sys := sys1, config := c1, configPersisted := false
        , rollbackAttempted := false, rollbackWarned := false }
      else if !o.generateOk then
        -- die() inside _write_brewfile: SystemExit(1), no rollback runs
        { outcome := .systemExit 1, sys := sys1, config := c1, configPersisted := true
        , rollbackAttempted := false, rollbackWarned := false }
      else
        { outcome := .ok, sys := sys1, config := c1, configPersisted := true
        , rollbackAttempted := false, rollbackWarned := false }

end BrewfileManager

namespace PackageAnalyzer

/-- The four `brew bundle list --<kind>` bridge calls performed by
`PackageAnalyzer._get_brewfile_packages`: each either fails
(`CalledProcessError`, modelled `.error ()`) or yields stdout lines. -/
structure BundleListBridge where
  tapCall : Except Unit (List String)
  formulaCall : Except Unit (List String)
  caskCall : Except Unit (List String)
  masCall : Except Unit (List String)
deriving Repr

/-- `[line.strip() for line in result.stdout.strip().split("\n") if line.strip()]`:
trim each output line and drop the empty ones. -/
def parseLines (out : List String) : List String :=
  (out.map (fun l => l.trim)).filter (fun l => !(l == ""))

/-- Embeds `PackageAnalyzer._add_commented_mas_apps`
(src/brewfile.py:418-439): scan the `~/Brewfile` lines (`none` when the
file is missing or unreadable) for `# mas "App Name"` comments and append
each unseen app name; a line without a quoted field would raise
`IndexError` in the source, which is caught and skipped. -/
def add_commented_mas_apps (brewfileLines : Option (List String)) (packages : PkgDict) :
    PkgDict :=
  match brewfileLines with
  | none => packages
  | some ls =>
    let masOut := ls.foldl (fun acc l0 =>
      let l := l0.trim
      if l.startsWith "# mas " then
        match (l.splitOn "\"").get? 1 with
        | some app => if acc.contains app then acc else acc ++ [app]
        | none => acc
      else acc) packages.mas
    { packages with mas := masOut }

/-- Embeds `PackageAnalyzer._get_brewfile_packages`
(src/brewfile.py:352-416): run the four `brew bundle list` calls in
order; the surrounding `try/except CalledProcessError` makes ANY failing
call return the all-empty dictionary ("If brew bundle list fails, fall
back to empty") instead of dying; on success, parse the lines and add the
commented MAS apps. -/
def get_brewfile_packages (b : BundleListBridge) (brewfileLines : Option (List String)) :
    PkgDict :=
  match b.tapCall with
  | .error _ => PkgDict.empty
  | .ok tapOut =>
    match b.formulaCall with
    | .error _ => PkgDict.empty
    | .ok formulaOut =>
      match b.caskCall with
      | .error _ => PkgDict.empty
      | .ok caskOut =>
        match b.masCall with
        | .error _ => PkgDict.empty
        | .ok masOut =>
          add_commented_mas_apps brewfileLines
            { taps := parseLines tapOut
            , brews := parseLines formulaOut
            , casks := parseLines caskOut
            , mas := parseLines masOut }

/-- Embeds `PackageAnalyzer._detect_installed_packages`
(src/brewfile.py:262-280).  `_clean_brew_system` touches no modelled
state and `_sync_brewfile_with_installed_packages` swallows every
`CalledProcessError` internally (src/brewfile.py:348-350), so the
`die("Could not get system packages: ...")` in the `except` branch is
unreachable and the result is always `_get_brewfile_packages` — including
its silent empty-dictionary fallback. -/
def detect_installed_packages (b : BundleListBridge) (brewfileLines : Option (List String)) :
    PkgDict :=
  get_brewfile_packages b brewfileLines

end PackageAnalyzer

namespace BrewfileManagerV1

/-- `line.split('"')[1]`: the first quoted field of a Brewfile directive. -/
def quoteField (l : String) : Option String := (l.splitOn "\"").get? 1

/-- The manifest-parsing loop of `BrewfileManager._get_system_packages` in
src/brewfile_v1.py (lines 367-386): classify each dumped line by its
`tap `/`brew `/`cask `/`mas ` prefix and collect the quoted name.  (A
malformed directive line without quotes would raise an uncaught
`IndexError` in the source; `brew bundle dump` always quotes names, so
such lines are modelled as skipped.) -/
def parseDumpLines (ls : List String) : PkgDict :=
  ls.foldl (fun acc l0 =>
    let l := l0.trim
    if l.startsWith "tap " then
      match quoteField l with
      | some t => { acc with taps := acc.taps ++ [t] }
      | none => acc
    else if l.startsWith "brew " then
      match quoteField l with
      | some t => { acc with brews := acc.brews ++ [t] }
      | none => acc
    else if l.startsWith "cask " then
      match quoteField l with
      | some t => { acc with casks := acc.casks ++ [t] }
      | none => acc
    else if l.startsWith "mas " then
      match quoteField l with
      | some t => { acc with mas := acc.mas ++ [t] }
      | none => acc
    else acc) PkgDict.empty

/-- Embeds `BrewfileManager._add_missing_installed_packages`
(src/brewfile_v1.py:397-419): extend brews/casks with installed packages
(`brew list` output tokens) missing from the dump; any
`CalledProcessError` leaves the packages unchanged (both listing calls
complete before any mutation).  Python builds `set`s, so the additions
are de-duplicated and their order is unspecified. -/
def add_missing_installed (listFormula listCask : Except Unit (List String))
    (packages : PkgDict) : PkgDict :=
  match listFormula, listCask with
  | .ok fs, .ok cs =>
    { packages with
      brews := packages.brews ++ fs.dedup.filter (fun n => !(packages.brews.contains n))
    , casks := packages.casks ++ cs.dedup.filter (fun n => !(packages.casks.contains n)) }
  | _, _ => packages

/-- Embeds `BrewfileManager._get_system_packages`
(src/brewfile_v1.py:351-395): dump the live system to a temp manifest via
`brew bundle dump` and parse it.  A failing dump hits
`die(f"Could not get system packages: ...")` — fatal for the whole
command, modelled as `.error`. -/
def get_system_packages (dump : Except Unit (List String))
    (listFormula listCask : Except Unit (List String)) : Except String PkgDict :=
  match dump with
  | .error _ => .error "Could not get system packages"
  | .ok ls => .ok (add_missing_installed listFormula listCask (parseDumpLines ls))

end BrewfileManagerV1

/-! ### Derived notions and concrete fixtures -/

/-- The list a `PackageGroup` keeps for a (plural) package-type string;
unknown keys have no list (`[]`), mirroring that no branch of the Python
`if/elif` chains matches them. -/
def listOf (g : PackageGroup) (key : String) : List String :=
  if key == "taps" then g.taps
  else if key == "brews" then g.brews
  else if key == "casks" then g.casks
  else if key == "mas" then g.mas
  else []

/-- The data-model invariant of §3 of the spec: within one group, a given
(kind, identifier) pair appears at most once. -/
def PackageGroup.atMostOnce (g : PackageGroup) : Prop :=
  g.taps.Nodup ∧ g.brews.Nodup ∧ g.casks.Nodup ∧ g.mas.Nodup

/-- The (group, kind, identifier) relation of the Declaration Store:
group `group_name` declares identifier `package_name` under (plural) kind
`kind`. -/
def declaresTriple (c : BrewfileConfig) (group_name kind package_name : String) : Prop :=
  ∃ e ∈ c.packages, e.1 = group_name ∧ package_name ∈ listOf e.2 kind

/-- Fixture: group "base" = {brews: ["git"]}, machine "laptop" → ["base"]. -/
def cfgBase : BrewfileConfig :=
  ⟨"1.0", [("base", ⟨[], ["git"], [], []⟩)], [("laptop", ["base"])]⟩

/-- `cfgBase` after `_add_to_config_group("htop", "formula", "base")`. -/
def cfgBaseHtop : BrewfileConfig :=
  ⟨"1.0", [("base", ⟨[], ["git", "htop"], [], []⟩)], [("laptop", ["base"])]⟩

/-- Fixture: two groups both declaring the brew "git". -/
def cfgTwoGroups : BrewfileConfig :=
  ⟨"1.0", [("a", ⟨[], ["git"], [], []⟩), ("b", ⟨[], ["git"], [], []⟩)], []⟩

/-- Fixture: a machine-named group exists but is not assigned. -/
def cfgSelfGroup : BrewfileConfig :=
  ⟨"1.0", [("laptop", PackageGroup.empty)], []⟩

/-- The `cmd_add` run where `brew install git` succeeds and the
configuration write then fails with `OSError`. -/
def addSaveFailRun : BrewfileManager.AddRunResult :=
  BrewfileManager.cmd_add cfgBase "laptop" "git" "formula" "base"
    ⟨true, false, true, true⟩ ⟨[], []⟩

/-- Declared set for the reconciliation witness: one brew, "git". -/
def confW : List PackageInfo := [⟨"git", "base", "brew"⟩]

/-- Installed set for the reconciliation witness: one brew, "htop". -/
def instW : PkgDict := ⟨[], ["htop"], [], []⟩

/-! ## Helper lemmas -/

lemma mem_configuredNames (configured : List PackageInfo) (t n : String) :
    n ∈ configuredNames configured t ↔ ∃ p ∈ configured, p.package_type = t ∧ p.name = n := by
  simp only [configuredNames, List.mem_dedup, List.mem_map, List.mem_filter, beq_iff_eq]
  constructor
  · rintro ⟨p, ⟨hp, ht⟩, hn⟩
    exact ⟨p, hp, ht, hn⟩
  · rintro ⟨p, hp, ht, hn⟩
    exact ⟨p, ⟨hp, ht⟩, hn⟩

lemma mem_filter_not_contains (l avoid : List String) (n : String) :
    n ∈ l.filter (fun x => !(avoid.contains x)) ↔ n ∈ l ∧ n ∉ avoid := by
  simp [List.mem_filter]

lemma listOf_taps (g : PackageGroup) : listOf g "taps" = g.taps := rfl

lemma listOf_brews (g : PackageGroup) : listOf g "brews" = g.brews := rfl

lemma listOf_casks (g : PackageGroup) : listOf g "casks" = g.casks := rfl

lemma listOf_mas (g : PackageGroup) : listOf g "mas" = g.mas := rfl

lemma listOf_empty (k : String) : listOf PackageGroup.empty k = [] := by
  unfold listOf PackageGroup.empty
  split_ifs <;> rfl

lemma listKey_eq (pt : String) :
    BrewfileManager.listKey pt = "casks" ∨ BrewfileManager.listKey pt = "brews" := by
  unfold BrewfileManager.listKey
  split_ifs <;> simp

lemma remove_package_casks (g : PackageGroup) (n : String) :
    g.remove_package "casks" n =
      if g.casks.contains n then (true, { g with casks := g.casks.erase n })
      else (false, g) := by
  by_cases h : g.casks.contains n <;> simp [PackageGroup.remove_package, h]

lemma remove_package_brews (g : PackageGroup) (n : String) :
    g.remove_package "brews" n =
      if g.brews.contains n then (true, { g with brews := g.brews.erase n })
      else (false, g) := by
  by_cases h : g.brews.contains n <;> simp [PackageGroup.remove_package, h]

lemma add_package_taps (g : PackageGroup) (n : String) :
    g.add_package "taps" n =
      .ok (if g.taps.contains n then g else { g with taps := g.taps ++ [n] }) := by
  simp [PackageGroup.add_package]

lemma add_package_mas (g : PackageGroup) (n : String) :
    g.add_package "mas" n =
      .ok (if g.mas.contains n then g else { g with mas := g.mas ++ [n] }) := by
  simp [PackageGroup.add_package]

lemma add_package_casks (g : PackageGroup) (n : String) :
    g.add_package "casks" n =
      .ok (if g.casks.contains n then g else { g with casks := g.casks ++ [n] }) := by
  simp [PackageGroup.add_package]

lemma add_package_brews (g : PackageGroup) (n : String) :
    g.add_package "brews" n =
      .ok (if g.brews.contains n then g else { g with brews := g.brews ++ [n] }) := by
  simp [PackageGroup.add_package]

lemma remove_package_not_mem (g : PackageGroup) (pt n : String)
    (h : n ∉ listOf g (BrewfileManager.listKey pt)) :
    g.remove_package (BrewfileManager.listKey pt) n = (false, g) := by
  rcases listKey_eq pt with hk | hk <;> rw [hk] at h ⊢
  · rw [listOf_casks] at h
    rw [remove_package_casks, if_neg (by simp [h])]
  · rw [listOf_brews] at h
    rw [remove_package_brews, if_neg (by simp [h])]

lemma remove_package_fst (g : PackageGroup) (pt n : String) :
    (g.remove_package (BrewfileManager.listKey pt) n).1 =
      (listOf g (BrewfileManager.listKey pt)).contains n := by
  rcases listKey_eq pt with hk | hk <;> rw [hk]
  · rw [remove_package_casks, listOf_casks]
    split <;> simp_all
  · rw [remove_package_brews, listOf_brews]
    split <;> simp_all

lemma remove_package_result_not_mem (g : PackageGroup) (pt n : String)
    (h : (listOf g (BrewfileManager.listKey pt)).count n ≤ 1) :
    n ∉ listOf (g.remove_package (BrewfileManager.listKey pt) n).2
        (BrewfileManager.listKey pt) := by
  rcases listKey_eq pt with hk | hk <;> rw [hk] at h ⊢
  · rw [listOf_casks] at h
    rw [remove_package_casks]
    by_cases hm : g.casks.contains n
    · rw [if_pos hm]
      show n ∉ g.casks.erase n
      intro hmem
      have hc := List.count_erase_self n g.casks
      have hp := List.count_pos_iff.mpr hmem
      omega
    · rw [if_neg hm]
      show n ∉ g.casks
      simpa using hm
  · rw [listOf_brews] at h
    rw [remove_package_brews]
    by_cases hm : g.brews.contains n
    · rw [if_pos hm]
      show n ∉ g.brews.erase n
      intro hmem
      have hc := List.count_erase_self n g.brews
      have hp := List.count_pos_iff.mpr hmem
      omega
    · rw [if_neg hm]
      show n ∉ g.brews
      simpa using hm

lemma sweepGroups_snd (key n : String) (ps : List (String × PackageGroup)) :
    (BrewfileManager.sweepGroups key n ps).2.1 =
      ps.map (fun e => (e.1, (e.2.remove_package key n).2)) := by
  induction ps with
  | nil => rfl
  | cons e rest ih => simp [BrewfileManager.sweepGroups, ih]

lemma sweepGroups_fst (key n : String) (ps : List (String × PackageGroup)) :
    (BrewfileManager.sweepGroups key n ps).1 =
      ps.any (fun e => (e.2.remove_package key n).1) := by
  induction ps with
  | nil => rfl
  | cons e rest ih => simp [BrewfileManager.sweepGroups, ih]

lemma find?_append_none {α : Type} (p : α → Bool) (l1 l2 : List α)
    (h : l1.find? p = none) : (l1 ++ l2).find? p = l2.find? p := by
  induction l1 with
  | nil => rfl
  | cons a t ih =>
    rw [List.find?_cons] at h
    rw [List.cons_append, List.find?_cons]
    cases hp : p a with
    | true =>
      rw [hp] at h
      exact Option.noConfusion h
    | false =>
      rw [hp] at h
      exact ih h

lemma find?_eq_of_nodup_keys (ps : List (String × PackageGroup))
    (hkeys : (ps.map Prod.fst).Nodup) (e : String × PackageGroup) (he : e ∈ ps)
    (tg : String) (h1 : e.1 = tg) :
    ps.find? (fun x => x.1 == tg) = some e := by
  induction ps with
  | nil => cases he
  | cons a t ih =>
    rw [List.map_cons, List.nodup_cons] at hkeys
    rcases List.mem_cons.mp he with rfl | het
    · rw [List.find?_cons, show (e.1 == tg) = true by simp [h1]]
    · by_cases ha : a.1 = tg
      · exfalso
        apply hkeys.1
        rw [List.mem_map]
        exact ⟨e, het, by rw [h1, ha]⟩
      · rw [List.find?_cons, show (a.1 == tg) = false by simp [ha]]
        exact ih hkeys.2 het

lemma add_then_remove_package (pg : PackageGroup) (pt n : String)
    (h : n ∉ listOf pg (BrewfileManager.listKey pt)) :
    ∃ pg', pg.add_package (BrewfileManager.listKey pt) n = .ok pg' ∧
      pg'.remove_package (BrewfileManager.listKey pt) n = (true, pg) := by
  rcases listKey_eq pt with hk | hk <;> rw [hk] at h ⊢
  · rw [listOf_casks] at h
    refine ⟨{ pg with casks := pg.casks ++ [n] }, ?_, ?_⟩
    · rw [add_package_casks, if_neg (by simpa using h)]
    · rw [remove_package_casks, if_pos (by simp)]
      have he : (pg.casks ++ [n]).erase n = pg.casks := by
        rw [List.erase_append_right _ h]
        simp
      rw [he]
  · rw [listOf_brews] at h
    refine ⟨{ pg with brews := pg.brews ++ [n] }, ?_, ?_⟩
    · rw [add_package_brews, if_neg (by simpa using h)]
    · rw [remove_package_brews, if_pos (by simp)]
      have he : (pg.brews ++ [n]).erase n = pg.brews := by
        rw [List.erase_append_right _ h]
        simp
      rw [he]

/-! ## Claim theorems -/

/-- C1 (counterexample): the comparison does NOT match a declared
store-app `"Example::123"` against the installed bare name `"Example"`:
the pair is reported both missing and extra. -/
theorem storeApp_id_pair_reported_missing_and_extra :
    (get_missing_packages [⟨"Example::123", "apps", "mas"⟩]
        ⟨[], [], [], ["Example"]⟩).mas = ["Example::123"] ∧
    (get_extra_packages [⟨"Example::123", "apps", "mas"⟩]
        ⟨[], [], [], ["Example"]⟩).mas = ["Example"] :=
  ⟨rfl, rfl⟩

/-- C1 (amended): store-app entries are compared by plain identifier
equality exactly like every other kind — a declared store-app identifier
is missing if and only if it does not appear verbatim in the installed
mas set, and an installed mas name is extra if and only if no declared
mas entry carries that exact identifier; no `name::id` stripping occurs. -/
theorem storeApp_plain_identifier_matching (configured : List PackageInfo)
    (installed : PkgDict) (n : String) :
    (n ∈ (get_missing_packages configured installed).mas ↔
      (∃ p ∈ configured, p.package_type = "mas" ∧ p.name = n) ∧ n ∉ installed.mas) ∧
    (n ∈ (get_extra_packages configured installed).mas ↔
      n ∈ installed.mas ∧ ¬ ∃ p ∈ configured, p.package_type = "mas" ∧ p.name = n) := by
  constructor
  · rw [show (get_missing_packages configured installed).mas =
        (configuredNames configured "mas").filter (fun x => !(installed.mas.contains x)) from rfl]
    rw [mem_filter_not_contains, mem_configuredNames]
  · rw [show (get_extra_packages configured installed).mas =
        installed.mas.dedup.filter (fun x => !((configuredNames configured "mas").contains x)) from rfl]
    rw [mem_filter_not_contains, List.mem_dedup]
    rw [mem_configuredNames]

/-- C2 (counterexample): running `cmd_remove` on declared+installed "git"
and declining the uninstall prompt still leaves the Declaration Store
mutated and persisted — the config write happens before the uninstall
question is even asked. -/
theorem remove_persists_before_declined_uninstall :
    (BrewfileManager.cmd_remove cfgBase "laptop" "git" "formula" .no true).persisted = true ∧
    (BrewfileManager.cmd_remove cfgBase "laptop" "git" "formula" .no true).uninstallCalled = false ∧
    (BrewfileManager.cmd_remove cfgBase "laptop" "git" "formula" .no true).config ≠ cfgBase := by
  refine ⟨rfl, rfl, ?_⟩
  decide

/-- C2 (amended): `cmd_remove` mutates and persists the Declaration Store
first — the final store and whether it was persisted are exactly those of
`_remove_from_config`, independent of the uninstall prompt's answer and of
whether the uninstall succeeds. -/
theorem remove_store_mutation_independent_of_uninstall (c : BrewfileConfig)
    (machine_name package_name package_type : String)
    (answer : BrewfileManager.Answer) (uninstallOk : Bool)
    (h : BrewfileManager.check_machine_configured c machine_name = true) :
    (BrewfileManager.cmd_remove c machine_name package_name package_type answer uninstallOk).config =
      (BrewfileManager.remove_from_config c package_name package_type).config ∧
    (BrewfileManager.cmd_remove c machine_name package_name package_type answer uninstallOk).persisted =
      (BrewfileManager.remove_from_config c package_name package_type).removed := by
  by_cases hr : (BrewfileManager.remove_from_config c package_name package_type).removed
  · cases answer <;> cases uninstallOk <;>
      simp [BrewfileManager.cmd_remove, h, hr]
  · simp [BrewfileManager.cmd_remove, h, hr]

/-- C2 (witness for the amended theorem) at a concrete configured run. -/
theorem remove_store_mutation_independent_of_uninstall_witness :
    (BrewfileManager.cmd_remove cfgBase "laptop" "git" "formula" .yes false).config =
      (BrewfileManager.remove_from_config cfgBase "git" "formula").config ∧
    (BrewfileManager.cmd_remove cfgBase "laptop" "git" "formula" .yes false).persisted =
      (BrewfileManager.remove_from_config cfgBase "git" "formula").removed :=
  remove_store_mutation_independent_of_uninstall cfgBase "laptop" "git" "formula" .yes false rfl

/-- C3 (code bug): when `brew install git` succeeds and the configuration
write then fails, `cmd_add` terminates via `die()`/`SystemExit(1)` —
which its `except Exception` rollback handler cannot catch — so no
rollback uninstall is attempted and "git" remains installed. -/
theorem add_save_failure_exits_without_rollback :
    addSaveFailRun.outcome = .systemExit 1 ∧
    addSaveFailRun.outcome.exitCode = 1 ∧
    "git" ∈ addSaveFailRun.sys.formulas ∧
    addSaveFailRun.rollbackAttempted = false ∧
    addSaveFailRun.configPersisted = false := by
  refine ⟨rfl, rfl, ?_, rfl, rfl⟩
  decide

/-- C4 (code bug): a failing `brew bundle list` bridge call makes the
current snapshot builder silently return the all-empty installed set,
while the v1 implementation treated a failing bridge dump as fatal. -/
theorem bridge_listing_error_yields_empty_snapshot :
    PackageAnalyzer.detect_installed_packages
      ⟨.error (), .ok ["git"], .ok ["firefox"], .ok []⟩ none = PkgDict.empty ∧
    BrewfileManagerV1.get_system_packages (.error ()) (.ok ["git"]) (.ok []) =
      .error "Could not get system packages" :=
  ⟨rfl, rfl⟩

/-- C6 (counterexample): for machine "laptop" with assignment ["base"] and
no group named "laptop" in the packages mapping, the resolved list is just
["base"] — the self-named group is NOT appended, although it is absent
from the assignment. -/
theorem self_group_not_appended_when_group_absent :
    BrewfileConfig.get_machine_groups cfgBase "laptop" = ["base"] ∧
    "laptop" ∉ (["base"] : List String) := by
  refine ⟨rfl, ?_⟩
  decide

/-- C6 (amended): resolving a machine's groups returns the explicit
assignment in order, and appends the machine's self-named group at the end
exactly when a group of that name exists in the packages mapping and it is
not already in the assignment; when an existing group bears the machine's
name it is always included in the result. -/
theorem get_machine_groups_spec (c : BrewfileConfig) (m : String) :
    ((findGroup c.packages m).isSome = false →
      c.get_machine_groups m = assignedGroups c m) ∧
    ((findGroup c.packages m).isSome = true → m ∈ assignedGroups c m →
      c.get_machine_groups m = assignedGroups c m) ∧
    ((findGroup c.packages m).isSome = true → m ∉ assignedGroups c m →
      c.get_machine_groups m = assignedGroups c m ++ [m]) ∧
    ((findGroup c.packages m).isSome = true → m ∈ c.get_machine_groups m) := by
  refine ⟨?_, ?_, ?_, ?_⟩
  · intro h
    simp [BrewfileConfig.get_machine_groups, h]
  · intro h1 h2
    simp [BrewfileConfig.get_machine_groups, h1, h2]
  · intro h1 h2
    simp [BrewfileConfig.get_machine_groups, h1, h2]
  · intro h1
    by_cases h2 : m ∈ assignedGroups c m
    · simp [BrewfileConfig.get_machine_groups, h1, h2]
    · simp [BrewfileConfig.get_machine_groups, h1, h2]

/-- C6 (witness for the amended theorem): an unassigned self-named group
is appended. -/
theorem get_machine_groups_spec_witness :
    BrewfileConfig.get_machine_groups cfgSelfGroup "laptop" =
      assignedGroups cfgSelfGroup "laptop" ++ ["laptop"] :=
  (get_machine_groups_spec cfgSelfGroup "laptop").2.2.1 rfl (by decide)

/-- C7 (counterexample): invoking `cmd_status` on the unconfigured machine
"desktop" (no assignment, no self-named group, hence no resolved group)
prints the not-configured message and the process exits with code 0, not
non-zero. -/
theorem unconfigured_status_exits_zero :
    (BrewfileManager.cmd_status cfgBase "desktop" PkgDict.empty).exitCode = 0 ∧
    (BrewfileManager.cmd_status cfgBase "desktop" PkgDict.empty).saidNotConfigured = true :=
  ⟨rfl, rfl⟩

/-- C7 (amended): on a machine absent from the machines assignment, each
convergence operation prints the message directing the user to run
`brewfile init`, performs no mutation of the declaration or the system,
and the process exits with code 0 (a plain `return`, not an error exit). -/
theorem unconfigured_guard_behavior (c : BrewfileConfig) (machine_name : String)
    (installed : PkgDict) (package_name package_type target_group : String)
    (answer : BrewfileManager.Answer) (uninstallOk : Bool)
    (o : BrewfileManager.AddOracle) (sys : BrewfileManager.SysState)
    (h : BrewfileManager.check_machine_configured c machine_name = false) :
    (BrewfileManager.cmd_status c machine_name installed).exitCode = 0 ∧
    (BrewfileManager.cmd_status c machine_name installed).config = c ∧
    (BrewfileManager.cmd_status c machine_name installed).saidNotConfigured = true ∧
    (BrewfileManager.cmd_remove c machine_name package_name package_type answer uninstallOk).exitCode = 0 ∧
    (BrewfileManager.cmd_remove c machine_name package_name package_type answer uninstallOk).config = c ∧
    (BrewfileManager.cmd_remove c machine_name package_name package_type answer uninstallOk).persisted = false ∧
    (BrewfileManager.cmd_remove c machine_name package_name package_type answer uninstallOk).uninstallCalled = false ∧
    (BrewfileManager.cmd_remove c machine_name package_name package_type answer uninstallOk).saidNotConfigured = true ∧
    (BrewfileManager.cmd_add c machine_name package_name package_type target_group o sys).outcome =
      .guardReturn ∧
    (BrewfileManager.cmd_add c machine_name package_name package_type target_group o sys).outcome.exitCode = 0 ∧
    (BrewfileManager.cmd_add c machine_name package_name package_type target_group o sys).sys = sys ∧
    (BrewfileManager.cmd_add c machine_name package_name package_type target_group o sys).config = c ∧
    (BrewfileManager.cmd_add c machine_name package_name package_type target_group o sys).configPersisted = false := by
  refine ⟨?_, ?_, ?_, ?_, ?_, ?_, ?_, ?_, ?_, ?_, ?_, ?_, ?_⟩ <;>
    simp [BrewfileManager.cmd_status, BrewfileManager.cmd_remove, BrewfileManager.cmd_add,
      BrewfileManager.AddOutcome.exitCode, h]

/-- C7 (witness for the amended theorem) at a concrete unconfigured run. -/
theorem unconfigured_guard_behavior_witness :
    (BrewfileManager.cmd_status cfgBase "desktop" PkgDict.empty).exitCode = 0 ∧
    (BrewfileManager.cmd_status cfgBase "desktop" PkgDict.empty).config = cfgBase ∧
    (BrewfileManager.cmd_status cfgBase "desktop" PkgDict.empty).saidNotConfigured = true ∧
    (BrewfileManager.cmd_remove cfgBase "desktop" "git" "formula" .yes true).exitCode = 0 ∧
    (BrewfileManager.cmd_remove cfgBase "desktop" "git" "formula" .yes true).config = cfgBase ∧
    (BrewfileManager.cmd_remove cfgBase "desktop" "git" "formula" .yes true).persisted = false ∧
    (BrewfileManager.cmd_remove cfgBase "desktop" "git" "formula" .yes true).uninstallCalled = false ∧
    (BrewfileManager.cmd_remove cfgBase "desktop" "git" "formula" .yes true).saidNotConfigured = true ∧
    (BrewfileManager.cmd_add cfgBase "desktop" "git" "formula" "base"
      ⟨true, true, true, true⟩ ⟨[], []⟩).outcome = .guardReturn ∧
    (BrewfileManager.cmd_add cfgBase "desktop" "git" "formula" "base"
      ⟨true, true, true, true⟩ ⟨[], []⟩).outcome.exitCode = 0 ∧
    (BrewfileManager.cmd_add cfgBase "desktop" "git" "formula" "base"
      ⟨true, true, true, true⟩ ⟨[], []⟩).sys = ⟨[], []⟩ ∧
    (BrewfileManager.cmd_add cfgBase "desktop" "git" "formula" "base"
      ⟨true, true, true, true⟩ ⟨[], []⟩).config = cfgBase ∧
    (BrewfileManager.cmd_add cfgBase "desktop" "git" "formula" "base"
      ⟨true, true, true, true⟩ ⟨[], []⟩).configPersisted = false :=
  unconfigured_guard_behavior cfgBase "desktop" PkgDict.empty "git" "formula" "base"
    .yes true ⟨true, true, true, true⟩ ⟨[], []⟩ rfl

/-- C8 (counterexample): loading a stored declaration whose group "g" has
brews ["git", "git"] yields a group violating the at-most-once invariant —
`from_dict` takes the stored lists verbatim and does not enforce it. -/
theorem from_dict_preserves_duplicates :
    findGroup (BrewfileConfig.from_dict
        ⟨"1.0", [("g", ⟨[], ["git", "git"], [], []⟩)], []⟩).packages "g" =
      some ⟨[], ["git", "git"], [], []⟩ ∧
    ¬ (PackageGroup.mk [] ["git", "git"] [] []).atMostOnce := by
  refine ⟨rfl, ?_⟩
  intro h
  exact absurd h.2.1 (by decide)

/-- C8 (amended): `add_package` fails with the explicit unknown-kind error
on an unknown package type, is a no-op (not an error) when the package is
already present, and preserves the at-most-once invariant; loading from
storage, however, does not enforce the invariant. -/
theorem group_invariant_add_package (g : PackageGroup) (package_type package_name : String) :
    (package_type ≠ "taps" → package_type ≠ "brews" → package_type ≠ "casks" →
      package_type ≠ "mas" →
      g.add_package package_type package_name =
        .error ("Unknown package type: " ++ package_type)) ∧
    (package_name ∈ listOf g package_type →
      g.add_package package_type package_name = .ok g) ∧
    (g.atMostOnce → ∀ g', g.add_package package_type package_name = .ok g' →
      g'.atMostOnce) := by
  refine ⟨?_, ?_, ?_⟩
  · intro h1 h2 h3 h4
    simp [PackageGroup.add_package, h1, h2, h3, h4]
  · intro hmem
    by_cases e1 : package_type = "taps"
    · subst e1
      rw [listOf_taps] at hmem
      simp [PackageGroup.add_package, hmem]
    · by_cases e2 : package_type = "brews"
      · subst e2
        rw [listOf_brews] at hmem
        simp [PackageGroup.add_package, hmem]
      · by_cases e3 : package_type = "casks"
        · subst e3
          rw [listOf_casks] at hmem
          simp [PackageGroup.add_package, hmem]
        · by_cases e4 : package_type = "mas"
          · subst e4
            rw [listOf_mas] at hmem
            simp [PackageGroup.add_package, hmem]
          · exfalso
            rw [show listOf g package_type = [] by
              simp [listOf, e1, e2, e3, e4]] at hmem
            cases hmem
  · intro hinv g' hok
    obtain ⟨i1, i2, i3, i4⟩ := hinv
    by_cases e1 : package_type = "taps"
    · subst e1
      rw [add_package_taps, Except.ok.injEq] at hok
      rw [← hok]
      by_cases hc : g.taps.contains package_name
      · rw [if_pos hc]
        exact ⟨i1, i2, i3, i4⟩
      · rw [if_neg hc]
        have hn : package_name ∉ g.taps := by simpa using hc
        exact ⟨by simp [List.nodup_append, i1, hn], i2, i3, i4⟩
    · by_cases e2 : package_type = "brews"
      · subst e2
        rw [add_package_brews, Except.ok.injEq] at hok
        rw [← hok]
        by_cases hc : g.brews.contains package_name
        · rw [if_pos hc]
          exact ⟨i1, i2, i3, i4⟩
        · rw [if_neg hc]
          have hn : package_name ∉ g.brews := by simpa using hc
          exact ⟨i1, by simp [List.nodup_append, i2, hn], i3, i4⟩
      · by_cases e3 : package_type = "casks"
        · subst e3
          rw [add_package_casks, Except.ok.injEq] at hok
          rw [← hok]
          by_cases hc : g.casks.contains package_name
          · rw [if_pos hc]
            exact ⟨i1, i2, i3, i4⟩
          · rw [if_neg hc]
            have hn : package_name ∉ g.casks := by simpa using hc
            exact ⟨i1, i2, by simp [List.nodup_append, i3, hn], i4⟩
        · by_cases e4 : package_type = "mas"
          · subst e4
            rw [add_package_mas, Except.ok.injEq] at hok
            rw [← hok]
            by_cases hc : g.mas.contains package_name
            · rw [if_pos hc]
              exact ⟨i1, i2, i3, i4⟩
            · rw [if_neg hc]
              have hn : package_name ∉ g.mas := by simpa using hc
              exact ⟨i1, i2, i3, by simp [List.nodup_append, i4, hn]⟩
          · simp [PackageGroup.add_package, e1, e2, e3, e4] at hok

/-- C8 (witness for the amended theorem): an unknown kind errors, and
re-adding an already-declared brew is a no-op. -/
theorem group_invariant_add_package_witness :
    PackageGroup.add_package ⟨[], ["git"], [], []⟩ "elixir" "x" =
      .error ("Unknown package type: " ++ "elixir") ∧
    PackageGroup.add_package ⟨[], ["git"], [], []⟩ "brews" "git" =
      .ok ⟨[], ["git"], [], []⟩ :=
  ⟨(group_invariant_add_package ⟨[], ["git"], [], []⟩ "elixir" "x").1
      (by decide) (by decide) (by decide) (by decide),
   (group_invariant_add_package ⟨[], ["git"], [], []⟩ "brews" "git").2.1 (by decide)⟩

/-- C5: for a declared set and an installed set containing no store-app
entries, the comparison computes exactly the set differences under plain
(kind, identifier) equality, per package kind: a name is missing if and
only if it is declared and not installed, and extra if and only if it is
installed and not declared. -/
theorem reconciliation_set_difference (configured : List PackageInfo) (installed : PkgDict)
    (hD : ∀ p ∈ configured, p.package_type ≠ "mas") (hI : installed.mas = [])
    (n : String) :
    (n ∈ (get_missing_packages configured installed).taps ↔
      (∃ p ∈ configured, p.package_type = "tap" ∧ p.name = n) ∧ n ∉ installed.taps) ∧
    (n ∈ (get_missing_packages configured installed).brews ↔
      (∃ p ∈ configured, p.package_type = "brew" ∧ p.name = n) ∧ n ∉ installed.brews) ∧
    (n ∈ (get_missing_packages configured installed).casks ↔
      (∃ p ∈ configured, p.package_type = "cask" ∧ p.name = n) ∧ n ∉ installed.casks) ∧
    (n ∈ (get_missing_packages configured installed).mas ↔
      (∃ p ∈ configured, p.package_type = "mas" ∧ p.name = n) ∧ n ∉ installed.mas) ∧
    (n ∈ (get_extra_packages configured installed).taps ↔
      n ∈ installed.taps ∧ ¬ ∃ p ∈ configured, p.package_type = "tap" ∧ p.name = n) ∧
    (n ∈ (get_extra_packages configured installed).brews ↔
      n ∈ installed.brews ∧ ¬ ∃ p ∈ configured, p.package_type = "brew" ∧ p.name = n) ∧
    (n ∈ (get_extra_packages configured installed).casks ↔
      n ∈ installed.casks ∧ ¬ ∃ p ∈ configured, p.package_type = "cask" ∧ p.name = n) ∧
    (n ∈ (get_extra_packages configured installed).mas ↔
      n ∈ installed.mas ∧ ¬ ∃ p ∈ configured, p.package_type = "mas" ∧ p.name = n) := by
  refine ⟨?_, ?_, ?_, ?_, ?_, ?_, ?_, ?_⟩ <;>
    simp only [get_missing_packages, get_extra_packages, mem_filter_not_contains,
      mem_configuredNames, List.mem_dedup]

/-- C5 (witness) on the declared set {brew git} and the installed set
{brew htop}, at the name "git". -/
theorem reconciliation_set_difference_witness :
    ("git" ∈ (get_missing_packages confW instW).taps ↔
      (∃ p ∈ confW, p.package_type = "tap" ∧ p.name = "git") ∧ "git" ∉ instW.taps) ∧
    ("git" ∈ (get_missing_packages confW instW).brews ↔
      (∃ p ∈ confW, p.package_type = "brew" ∧ p.name = "git") ∧ "git" ∉ instW.brews) ∧
    ("git" ∈ (get_missing_packages confW instW).casks ↔
      (∃ p ∈ confW, p.package_type = "cask" ∧ p.name = "git") ∧ "git" ∉ instW.casks) ∧
    ("git" ∈ (get_missing_packages confW instW).mas ↔
      (∃ p ∈ confW, p.package_type = "mas" ∧ p.name = "git") ∧ "git" ∉ instW.mas) ∧
    ("git" ∈ (get_extra_packages confW instW).taps ↔
      "git" ∈ instW.taps ∧ ¬ ∃ p ∈ confW, p.package_type = "tap" ∧ p.name = "git") ∧
    ("git" ∈ (get_extra_packages confW instW).brews ↔
      "git" ∈ instW.brews ∧ ¬ ∃ p ∈ confW, p.package_type = "brew" ∧ p.name = "git") ∧
    ("git" ∈ (get_extra_packages confW instW).casks ↔
      "git" ∈ instW.casks ∧ ¬ ∃ p ∈ confW, p.package_type = "cask" ∧ p.name = "git") ∧
    ("git" ∈ (get_extra_packages confW instW).mas ↔
      "git" ∈ instW.mas ∧ ¬ ∃ p ∈ confW, p.package_type = "mas" ∧ p.name = "git") :=
  reconciliation_set_difference confW instW (by decide) rfl "git"

/-- C10: `_remove_from_config` sweeps all groups — afterwards no group's
list for the kind contains the identifier (given the per-group at-most-once
count bound) — returns success exactly when at least one group contained
the identifier, persists exactly when it returns success, and leaves the
in-memory and persisted configuration untouched when no group contained
it. -/
theorem remove_from_config_spec (c : BrewfileConfig) (package_name package_type : String)
    (hdup : ∀ e ∈ c.packages,
      (listOf e.2 (BrewfileManager.listKey package_type)).count package_name ≤ 1) :
    (∀ e ∈ (BrewfileManager.remove_from_config c package_name package_type).config.packages,
        package_name ∉ listOf e.2 (BrewfileManager.listKey package_type)) ∧
    ((BrewfileManager.remove_from_config c package_name package_type).removed = true ↔
        ∃ e ∈ c.packages, package_name ∈ listOf e.2 (BrewfileManager.listKey package_type)) ∧
    ((BrewfileManager.remove_from_config c package_name package_type).saved =
        (BrewfileManager.remove_from_config c package_name package_type).removed) ∧
    ((∀ e ∈ c.packages, package_name ∉ listOf e.2 (BrewfileManager.listKey package_type)) →
        (BrewfileManager.remove_from_config c package_name package_type).config = c ∧
        (BrewfileManager.remove_from_config c package_name package_type).saved = false) := by
  refine ⟨?_, ?_, rfl, ?_⟩
  · intro e he
    rw [show (BrewfileManager.remove_from_config c package_name package_type).config.packages =
        (BrewfileManager.sweepGroups (BrewfileManager.listKey package_type)
          package_name c.packages).2.1 from rfl, sweepGroups_snd, List.mem_map] at he
    obtain ⟨e0, he0, rfl⟩ := he
    exact remove_package_result_not_mem e0.2 package_type package_name (hdup e0 he0)
  · rw [show (BrewfileManager.remove_from_config c package_name package_type).removed =
        (BrewfileManager.sweepGroups (BrewfileManager.listKey package_type)
          package_name c.packages).1 from rfl, sweepGroups_fst, List.any_eq_true]
    constructor
    · rintro ⟨e, he, hb⟩
      rw [remove_package_fst] at hb
      exact ⟨e, he, by simpa using hb⟩
    · rintro ⟨e, he, hm⟩
      refine ⟨e, he, ?_⟩
      rw [remove_package_fst]
      simpa using hm
  · intro hnone
    have hmap : (BrewfileManager.sweepGroups (BrewfileManager.listKey package_type)
        package_name c.packages).2.1 = c.packages := by
      rw [sweepGroups_snd]
      have hid : ∀ e ∈ c.packages,
          (e.1, (e.2.remove_package (BrewfileManager.listKey package_type) package_name).2) = e := by
        intro e he
        rw [remove_package_not_mem e.2 package_type package_name (hnone e he)]
      calc c.packages.map
            (fun e => (e.1, (e.2.remove_package (BrewfileManager.listKey package_type)
              package_name).2))
          = c.packages.map (fun e => e) := List.map_congr_left hid
        _ = c.packages := List.map_id' c.packages
    have hfst : (BrewfileManager.sweepGroups (BrewfileManager.listKey package_type)
        package_name c.packages).1 = false := by
      rw [sweepGroups_fst, List.any_eq_false]
      intro e he
      rw [remove_package_not_mem e.2 package_type package_name (hnone e he)]
      simp
    constructor
    · show ({ c with packages := (BrewfileManager.sweepGroups
        (BrewfileManager.listKey package_type) package_name c.packages).2.1 } : BrewfileConfig) = c
      rw [hmap]
    · show (BrewfileManager.sweepGroups (BrewfileManager.listKey package_type)
        package_name c.packages).1 = false
      exact hfst

/-- C10 (witness): removing the brew "git" declared in both of two groups
succeeds, and indeed some group contained it. -/
theorem remove_from_config_spec_witness :
    (BrewfileManager.remove_from_config cfgTwoGroups "git" "formula").removed = true ↔
      ∃ e ∈ cfgTwoGroups.packages,
        "git" ∈ listOf e.2 (BrewfileManager.listKey "formula") :=
  (remove_from_config_spec cfgTwoGroups "git" "formula" (by decide)).2.1

/-- C9: for an identifier not currently declared anywhere in the store,
`_add_to_config_group` followed by `_remove_from_config` returns the
Declaration Store to a state equal to the pre-add state under the
(group, kind, identifier) relation — the one observable difference, a
freshly auto-created empty target group, declares no triples. -/
theorem add_remove_roundtrip (c c1 : BrewfileConfig)
    (package_name package_type target_group : String)
    (hkeys : (c.packages.map Prod.fst).Nodup)
    (hnot : ∀ e ∈ c.packages, package_name ∉ e.2.taps ∧ package_name ∉ e.2.brews ∧
        package_name ∉ e.2.casks ∧ package_name ∉ e.2.mas)
    (hadd : BrewfileManager.add_to_config_group c package_name package_type target_group =
      .ok c1) :
    ∀ g k n,
      declaresTriple
        (BrewfileManager.remove_from_config c1 package_name package_type).config g k n ↔
      declaresTriple c g k n := by
  have hnotkey : ∀ e ∈ c.packages,
      package_name ∉ listOf e.2 (BrewfileManager.listKey package_type) := by
    intro e he
    rcases listKey_eq package_type with hk | hk <;> rw [hk]
    · rw [listOf_casks]
      exact (hnot e he).2.2.1
    · rw [listOf_brews]
      exact (hnot e he).2.1
  cases hfind : findGroup c.packages target_group with
  | some pg0 =>
    have hens : c.ensure_group_exists target_group = c := by
      simp [BrewfileConfig.ensure_group_exists, hfind]
    obtain ⟨e0, he0mem, he0key, he0val⟩ :
        ∃ e, e ∈ c.packages ∧ e.1 = target_group ∧ e.2 = pg0 := by
      unfold findGroup at hfind
      cases hf2 : c.packages.find? (fun x => x.1 == target_group) with
      | none =>
        rw [hf2] at hfind
        exact Option.noConfusion hfind
      | some e0 =>
        rw [hf2] at hfind
        simp only [Option.map_some', Option.some.injEq] at hfind
        have hm := List.mem_of_find?_eq_some hf2
        have hp := List.find?_some hf2
        exact ⟨e0, hm, by simpa using hp, hfind⟩
    have hnmem0 : package_name ∉ listOf pg0 (BrewfileManager.listKey package_type) := by
      rw [← he0val]
      exact hnotkey e0 he0mem
    obtain ⟨pg', haddpg, hrem⟩ :=
      add_then_remove_package pg0 package_type package_name hnmem0
    have hc1 : c1 = { c with packages :=
        BrewfileManager.setGroup c.packages target_group pg' } := by
      have h := hadd
      simp only [BrewfileManager.add_to_config_group, hens, hfind, Option.getD_some,
        haddpg, Except.ok.injEq] at h
      exact h.symm
    have hpk : (BrewfileManager.sweepGroups (BrewfileManager.listKey package_type)
        package_name c1.packages).2.1 = c.packages := by
      rw [hc1]
      rw [show ({ c with packages :=
          BrewfileManager.setGroup c.packages target_group pg' } : BrewfileConfig).packages =
        BrewfileManager.setGroup c.packages target_group pg' from rfl]
      rw [sweepGroups_snd]
      unfold BrewfileManager.setGroup
      rw [List.map_map]
      calc c.packages.map
            ((fun e => (e.1, (e.2.remove_package (BrewfileManager.listKey package_type)
                package_name).2)) ∘
             (fun e => if e.1 == target_group then (e.1, pg') else e))
          = c.packages.map (fun e => e) := List.map_congr_left ?_
        _ = c.packages := List.map_id' _
      intro e he
      by_cases het : (e.1 == target_group) = true
      · have he_eq : e = e0 := by
          have h1 := find?_eq_of_nodup_keys c.packages hkeys e he target_group
            (by simpa using het)
          have h2 := find?_eq_of_nodup_keys c.packages hkeys e0 he0mem target_group he0key
          rw [h1] at h2
          injection h2
        simp only [Function.comp_apply]
        rw [if_pos het, show ((e.1, pg') : String × PackageGroup).2 = pg' from rfl, hrem]
        rw [he_eq, ← he0val]
      · simp only [Function.comp_apply]
        rw [if_neg het]
        rw [remove_package_not_mem e.2 package_type package_name (hnotkey e he)]
    have hfinal : (BrewfileManager.remove_from_config c1 package_name package_type).config
        = c := by
      show ({ c1 with packages := (BrewfileManager.sweepGroups
          (BrewfileManager.listKey package_type) package_name c1.packages).2.1 } :
        BrewfileConfig) = c
      rw [hpk, hc1]
    intro g k n
    rw [hfinal]
  | none =>
    have hens : c.ensure_group_exists target_group =
        { c with packages := c.packages ++ [(target_group, PackageGroup.empty)] } := by
      simp [BrewfileConfig.ensure_group_exists, hfind]
    have hf0 : c.packages.find? (fun x => x.1 == target_group) = none := by
      unfold findGroup at hfind
      cases hf2 : c.packages.find? (fun x => x.1 == target_group) with
      | none => rfl
      | some e0 =>
        rw [hf2] at hfind
        exact Option.noConfusion hfind
    have hne : ∀ e ∈ c.packages, (e.1 == target_group) = false := by
      intro e he
      have := List.find?_eq_none.mp hf0 e he
      simpa using this
    have hfind2 : findGroup (c.packages ++ [(target_group, PackageGroup.empty)])
        target_group = some PackageGroup.empty := by
      unfold findGroup
      rw [find?_append_none _ _ _ hf0, List.find?_cons,
        show (((target_group, PackageGroup.empty) : String × PackageGroup).1 ==
          target_group) = true by simp]
      rfl
    obtain ⟨pg', haddpg, hrem⟩ :=
      add_then_remove_package PackageGroup.empty package_type package_name
        (by rw [listOf_empty]; exact List.not_mem_nil package_name)
    have hc1 : c1 = { c with packages :=
        (BrewfileManager.setGroup (c.packages ++ [(target_group, PackageGroup.empty)])
          target_group pg') } := by
      have h := hadd
      simp only [BrewfileManager.add_to_config_group, hens, hfind2, Option.getD_some,
        haddpg, Except.ok.injEq] at h
      exact h.symm
    have hpk : (BrewfileManager.sweepGroups (BrewfileManager.listKey package_type)
        package_name c1.packages).2.1 =
        c.packages ++ [(target_group, PackageGroup.empty)] := by
      rw [hc1]
      rw [show ({ c with packages :=
          (BrewfileManager.setGroup (c.packages ++ [(target_group, PackageGroup.empty)])
            target_group pg') } : BrewfileConfig).packages =
        BrewfileManager.setGroup (c.packages ++ [(target_group, PackageGroup.empty)])
          target_group pg' from rfl]
      rw [sweepGroups_snd]
      unfold BrewfileManager.setGroup
      rw [List.map_map, List.map_append]
      congr 1
      · calc c.packages.map
              ((fun e => (e.1, (e.2.remove_package (BrewfileManager.listKey package_type)
                  package_name).2)) ∘
               (fun e => if e.1 == target_group then (e.1, pg') else e))
            = c.packages.map (fun e => e) := List.map_congr_left ?_
          _ = c.packages := List.map_id' _
        intro e he
        simp only [Function.comp_apply]
        rw [if_neg (by simp [hne e he])]
        rw [remove_package_not_mem e.2 package_type package_name (hnotkey e he)]
      · simp only [List.map_cons, List.map_nil, Function.comp_apply]
        rw [if_pos (by simp), show (((target_group, PackageGroup.empty) :
          String × PackageGroup).1, pg').2 = pg' from rfl, hrem]
    have hfinal : (BrewfileManager.remove_from_config c1 package_name package_type).config
        = { c with packages := c.packages ++ [(target_group, PackageGroup.empty)] } := by
      show ({ c1 with packages := (BrewfileManager.sweepGroups
          (BrewfileManager.listKey package_type) package_name c1.packages).2.1 } :
        BrewfileConfig) = _
      rw [hpk, hc1]
    intro g k n
    rw [hfinal]
    simp only [declaresTriple, List.mem_append, List.mem_cons, List.not_mem_nil, or_false]
    constructor
    · rintro ⟨e, he | he2, h1, h2⟩
      · exact ⟨e, he, h1, h2⟩
      · rw [he2] at h2
        have h3 : listOf ((target_group, PackageGroup.empty) : String × PackageGroup).2 k
            = [] := listOf_empty k
        rw [h3] at h2
        cases h2
    · rintro ⟨e, he, h1, h2⟩
      exact ⟨e, Or.inl he, h1, h2⟩

/-- C9 (witness): adding the undeclared brew "htop" to group "base" of
`cfgBase` and removing it again declares exactly the triples of `cfgBase`,
instantiated at the triple ("base", "brews", "git"). -/
theorem add_remove_roundtrip_witness :
    declaresTriple (BrewfileManager.remove_from_config cfgBaseHtop "htop" "formula").config
      "base" "brews" "git" ↔ declaresTriple cfgBase "base" "brews" "git" :=
  add_remove_roundtrip cfgBase cfgBaseHtop "htop" "formula" "base"
    (by decide) (by decide) rfl "base" "brews" "git"

end Brewfile
